import Mathlib

/-!
Verification of the camera/chroma-key property state machine of the
`varjo-camera-stylization` example code (`CameraManager.cpp`,
`ChromaKeyManager.cpp`).

The device session (`varjo_Session`) is an external collaborator: the
observable device state that the two managers read and write is modelled as
explicit record state, and every session call the managers issue is recorded
in a trace of events, so that lock discipline and call ordering can be
stated and proved.
-/

set_option maxRecDepth 8000

namespace VarjoCam

/-- Modelled from the spec: `varjo_CameraPropertyMode` (declared in
`Varjo_mr_types.h`, which is not under `src/`): the enum {Off, Auto, Manual}. -/
inductive CamMode where
  | off
  | auto
  | manual
  deriving DecidableEq

/-- Modelled from the spec: `varjo_CameraPropertyConfigType` (declared in
`Varjo_mr_types.h`, not under `src/`): the property config type {List, Range}. -/
inductive CamConfigType where
  | list
  | range
  deriving DecidableEq

/-- Modelled from the spec: `varjo_CameraPropertyDataType` (declared in
`Varjo_mr_types.h`, not under `src/`): the type tag {Bool, Int, Double}. -/
inductive CamDataType where
  | tBool
  | tInt
  | tDouble
  deriving DecidableEq

/-- Modelled from the spec: `varjo_CameraPropertyValue` (declared in
`Varjo_mr_types.h`, not under `src/`): a type tag plus a C union over
{bool (`varjo_Bool` = int32), int (int64), double (IEEE-754 binary64)}.
The union's shared 8-byte storage is modelled as the raw 64-bit pattern
(little-endian host, as on the supported platforms), so that reading a union
member other than the one last written — which the source code does in
`findPropertyValueIndex` — has a definite meaning. -/
structure CameraPropertyValue where
  type : CamDataType
  bits : Nat
  deriving DecidableEq

/-- Reading the `boolValue` member (`varjo_Bool`, an int32) of the union:
the low 32 bits of the stored pattern (little-endian). -/
def boolMember (v : CameraPropertyValue) : Nat :=
  v.bits % 2 ^ 32

/-- IEEE-754 binary64 NaN test on a bit pattern: exponent all ones and
nonzero mantissa. -/
def isNaNBits (b : Nat) : Bool :=
  decide ((b / 2 ^ 52) % 2 ^ 11 = 2 ^ 11 - 1) && decide (b % 2 ^ 52 ≠ 0)

/-- IEEE-754 binary64 zero test on a bit pattern: +0.0 or -0.0, i.e. all bits
below the sign bit are zero. -/
def isZeroBits (b : Nat) : Bool :=
  decide (b % 2 ^ 63 = 0)

/-- The C `==` on two doubles, expressed on their bit patterns: false if
either is NaN; true if both are zeros (+0.0 == -0.0); otherwise equality of
the patterns (distinct non-NaN, non-zero patterns denote distinct reals). -/
def doubleEqBits (a b : Nat) : Bool :=
  if isNaNBits a || isNaNBits b then false
  else if isZeroBits a && isZeroBits b then true
  else decide (a = b)

/-- One iteration body of `CameraManager::findPropertyValueIndex`
(CameraManager.cpp:249-272): the `switch (propertyValue.type)` selects which
union member of the entry `val` is compared against the searched value's
member of the same name.  Note that the entry's own `type` tag is never
inspected. -/
def matchesEntry (propertyValue val : CameraPropertyValue) : Bool :=
  match propertyValue.type with
  | CamDataType.tBool => decide (boolMember propertyValue = boolMember val)
  | CamDataType.tDouble => doubleEqBits propertyValue.bits val.bits
  | CamDataType.tInt => decide (propertyValue.bits = val.bits)

/-- The indexed scan loop of `CameraManager::findPropertyValueIndex`. -/
def findPropertyValueIndexAux (propertyValue : CameraPropertyValue) :
    List CameraPropertyValue → Int → Int
  | [], _ => -1
  | val :: rest, i =>
      if matchesEntry propertyValue val then i
      else findPropertyValueIndexAux propertyValue rest (i + 1)

/-- Embedding of `CameraManager::findPropertyValueIndex` (CameraManager.cpp:249-272). -/
def findPropertyValueIndex (propertyValue : CameraPropertyValue)
    (values : List CameraPropertyValue) : Int :=
  findPropertyValueIndexAux propertyValue values 0

/-- The `std::find` scan of `CameraManager::findPropertyModeIndex`. -/
def findPropertyModeIndexAux (mode : CamMode) : List CamMode → Int → Int
  | [], _ => -1
  | m :: rest, i =>
      if m = mode then i else findPropertyModeIndexAux mode rest (i + 1)

/-- Embedding of `CameraManager::findPropertyModeIndex` (CameraManager.cpp:243-247):
index of the first occurrence of `mode`, or -1. -/
def findPropertyModeIndex (mode : CamMode) (modes : List CamMode) : Int :=
  findPropertyModeIndexAux mode modes 0

/-- One session call issued by `CameraManager`, as recorded in a trace. -/
inductive Event where
  | lock (ok : Bool)
  | unlock
  | getPropertyMode
  | getPropertyValue
  | getModeList
  | getValueList
  | setPropertyMode (m : CamMode)
  | setPropertyValue (v : CameraPropertyValue)
  | resetProperties
  | logError
  | logWarning
  deriving DecidableEq

/-- The session calls that mutate device state. -/
def Event.isMutation : Event → Bool
  | Event.setPropertyMode _ => true
  | Event.setPropertyValue _ => true
  | Event.resetProperties => true
  | _ => false

/-- The observable device-session state for one camera property, as seen
through the session calls `CameraManager` issues: the supported mode list,
the property config type, the supported value list, the current mode and
value, and whether `varjo_Lock` would currently succeed.  The claims assume
no out-of-band changes, so the supported lists, config type and lock
availability are fixed fields. -/
structure CamDevice where
  modes : List CamMode
  configType : CamConfigType
  values : List CameraPropertyValue
  mode : CamMode
  value : CameraPropertyValue
  lockAvailable : Bool
  deriving DecidableEq

/-- Embedding of `CameraManager::getPropertyModeList` (CameraManager.cpp:180-187). -/
def getPropertyModeList (d : CamDevice) : List CamMode :=
  d.modes

/-- Embedding of `CameraManager::getPropertyValueList` (CameraManager.cpp:189-207):
if the property's config type is not `List`, logs and returns the empty
vector; otherwise fetches the value list. -/
def getPropertyValueList (d : CamDevice) : List CameraPropertyValue :=
  if d.configType ≠ CamConfigType.list then [] else d.values

/-- Embedding of `CameraManager::setPropertyValueToModuloIndex` (CameraManager.cpp:274-281):
re-fetches the supported value list and accesses
`supportedValues[index % supportedValues.size()]`.  With an empty list the
modulo is a division by zero and the access is out of bounds (undefined
behaviour), modelled as `none`; call sites only pass non-negative indices, so
the index is a `Nat`. -/
def setPropertyValueToModuloIndex (d : CamDevice) (index : Nat) :
    Option (CamDevice × List Event) :=
  match (getPropertyValueList d)[index % (getPropertyValueList d).length]? with
  | none => none
  | some nextPropertyValue =>
      some ({ d with value := nextPropertyValue },
        [Event.setPropertyValue nextPropertyValue])

/-- Embedding of `CameraManager::setPropertyModeToModuloIndex` (CameraManager.cpp:283-293):
re-fetches the mode list, picks `supportedModes[index % size]`; if the next
mode is Manual it first presets the manual value to list index 0 and only then
sets the mode. -/
def setPropertyModeToModuloIndex (d : CamDevice) (index : Nat) :
    Option (CamDevice × List Event) :=
  match (getPropertyModeList d)[index % (getPropertyModeList d).length]? with
  | none => none
  | some nextPropertyMode =>
      if nextPropertyMode = CamMode.manual then
        match setPropertyValueToModuloIndex d 0 with
        | none => none
        | some (d1, evs) =>
            some ({ d1 with mode := nextPropertyMode },
              evs ++ [Event.setPropertyMode nextPropertyMode])
      else
        some ({ d with mode := nextPropertyMode },
          [Event.setPropertyMode nextPropertyMode])

/-- The tail of `CameraManager::applyNextModeOrValue`
(CameraManager.cpp:152-162): find the current mode's index and advance the
mode, then unlock.  `pre` is the trace issued so far; on the undefined
behaviour of `setPropertyModeToModuloIndex` with an empty re-fetched value
list the run is cut short with `none`. -/
def applyNextModeTail (d : CamDevice) (pre : List Event) :
    Option CamDevice × List Event :=
  let currentModeIndex := findPropertyModeIndex d.mode (getPropertyModeList d)
  if currentModeIndex = -1 then
    (some d, pre ++ [Event.logError, Event.unlock])
  else
    match setPropertyModeToModuloIndex d (currentModeIndex.toNat + 1) with
    | none => (none, pre)
    | some (d1, evs) => (some d1, pre ++ evs ++ [Event.unlock])

/-- Embedding of `CameraManager::applyNextModeOrValue` (CameraManager.cpp:119-162).
Returns the device state after the call (`none` when the call runs into the
undefined modulo-by-zero access) together with the trace of session calls. -/
def applyNextModeOrValue (d : CamDevice) : Option CamDevice × List Event :=
  if d.lockAvailable = false then
    (some d, [Event.lock false, Event.logError])
  else
    let pre := [Event.lock true, Event.getPropertyMode, Event.getModeList]
    if d.mode = CamMode.manual then
      let pre := pre ++ [Event.getPropertyValue, Event.getValueList]
      let supportedValues := getPropertyValueList d
      let currentValueIndex := findPropertyValueIndex d.value supportedValues
      if currentValueIndex = -1 then
        (some d, pre ++ [Event.logError, Event.unlock])
      else if currentValueIndex + 1 < (supportedValues.length : Int) then
        match setPropertyValueToModuloIndex d (currentValueIndex.toNat + 1) with
        | none => (none, pre)
        | some (d1, evs) => (some d1, pre ++ evs ++ [Event.unlock])
      else
        applyNextModeTail d pre
    else
      applyNextModeTail d pre

/-- Embedding of `CameraManager::setAutoMode` (CameraManager.cpp:89-117): warn and return
if Auto is unsupported; then lock (abort on failure), set mode Auto,
unlock. -/
def setAutoMode (d : CamDevice) : CamDevice × List Event :=
  let modes := getPropertyModeList d
  if (modes.contains CamMode.auto) = false then
    (d, [Event.logWarning])
  else if d.lockAvailable = false then
    (d, [Event.lock false, Event.logError])
  else
    ({ d with mode := CamMode.auto },
      [Event.lock true, Event.setPropertyMode CamMode.auto, Event.unlock])

/-- Embedding of `CameraManager::resetPropertiesToDefaults` (CameraManager.cpp:164-178):
lock (abort on failure), reset, unlock.  The device-side effect of
`varjo_MRResetCameraProperties` is external to this repository; only the
call itself is recorded. -/
def resetPropertiesToDefaults (d : CamDevice) : CamDevice × List Event :=
  if d.lockAvailable = false then
    (d, [Event.lock false, Event.logError])
  else
    (d, [Event.lock true, Event.resetProperties, Event.unlock])

/-- The three locking operations of `CameraManager`. -/
inductive CamOp where
  | setAuto
  | advance
  | reset
  deriving DecidableEq

/-- Run one `CameraManager` operation, returning the resulting device state
(`none` on the undefined-behaviour path) and the trace of session calls. -/
def runCamOp : CamOp → CamDevice → Option CamDevice × List Event
  | CamOp.setAuto, d => let r := setAutoMode d; (some r.1, r.2)
  | CamOp.advance, d => applyNextModeOrValue d
  | CamOp.reset, d => let r := resetPropertiesToDefaults d; (some r.1, r.2)

/-- The state transformer of one `applyNextModeOrValue` call. -/
def advStep (d : CamDevice) : Option CamDevice :=
  (applyNextModeOrValue d).1

/-- Iterated `applyNextModeOrValue` calls: `n` successive steps. -/
def advanceN : Nat → CamDevice → Option CamDevice
  | 0, d => some d
  | n + 1, d => (advStep d).bind (advanceN n)

/-- One session call issued by `ChromaKeyManager`, as recorded in a trace.
`cfgIndex` is the config slot index of a get/set-config call. -/
inductive ChromaEvent where
  | lock (ok : Bool)
  | unlock
  | setChromaKey (enabled : Bool)
  | setChromaKeyConfig (cfgIndex : Int)
  | logError
  | logWarning
  deriving DecidableEq

/-- The two shadow flags `ChromaKeyManager` keeps (`m_configLocked`,
`m_chromaKeyEnabled`). -/
structure ChromaState where
  configLocked : Bool
  chromaKeyEnabled : Bool
  deriving DecidableEq

/-- Embedding of `ChromaKeyManager::toggleChromaKeying` (ChromaKeyManager.cpp:99-116).
`callErr` is whether the `varjo_MRSetChromaKey` device call reports an error
through `CHECK_VARJO_ERR`.  Returns (result, new shadow state, trace). -/
def toggleChromaKeying (st : ChromaState) (enabled : Bool) (callErr : Bool) :
    Bool × ChromaState × List ChromaEvent :=
  if enabled = st.chromaKeyEnabled then
    (false, st, [ChromaEvent.logWarning])
  else
    if callErr = false then
      (true, { st with chromaKeyEnabled := enabled },
        [ChromaEvent.setChromaKey enabled])
    else
      (false, st, [ChromaEvent.setChromaKey enabled])

/-- Embedding of `ChromaKeyManager::setConfig` (ChromaKeyManager.cpp:129-139), with the
`CHECK_CONFIG_LOCK` macro (ChromaKeyManager.cpp:11-14) inlined: if the lock
shadow is false the macro only logs an error, then the
`varjo_MRSetChromaKeyConfig` call is issued regardless; the return value is
whether that call reported no error.  The config payload is never inspected
by the manager, so it stays a type parameter. -/
def setConfig {Cfg : Type} (st : ChromaState) (index : Int) (_config : Cfg)
    (callErr : Bool) : Bool × List ChromaEvent :=
  let evs := if st.configLocked = false then [ChromaEvent.logError] else []
  (decide (callErr = false), evs ++ [ChromaEvent.setChromaKeyConfig index])

/-- Embedding of `ChromaKeyManager::lockConfig` (ChromaKeyManager.cpp:64-80).
`lockAvailable` is whether `varjo_Lock` succeeds. -/
def lockConfig (st : ChromaState) (lockAvailable : Bool) :
    Bool × ChromaState × List ChromaEvent :=
  if st.configLocked then
    (st.configLocked, st, [ChromaEvent.logWarning])
  else
    let st1 := { st with configLocked := lockAvailable }
    if st1.configLocked = false then
      (st1.configLocked, st1, [ChromaEvent.lock lockAvailable, ChromaEvent.logError])
    else
      (st1.configLocked, st1, [ChromaEvent.lock lockAvailable])

/-- Embedding of `ChromaKeyManager::unlockConfig` (ChromaKeyManager.cpp:82-97).
`callErr` is whether the `varjo_Unlock` call reports an error through
`CHECK_VARJO_ERR`; the error is only logged, and `m_configLocked` is set to
false unconditionally after the call. -/
def unlockConfig (st : ChromaState) (callErr : Bool) :
    ChromaState × List ChromaEvent :=
  if st.configLocked = false then
    (st, [ChromaEvent.logWarning])
  else
    let evs := [ChromaEvent.unlock] ++ if callErr then [ChromaEvent.logError] else []
    ({ st with configLocked := false }, evs)

/-! ### Helper lemmas about the index-finding scans -/

theorem matchesEntry_tInt (pv v : CameraPropertyValue) (h : pv.type = CamDataType.tInt) :
    matchesEntry pv v = decide (pv.bits = v.bits) := by
  unfold matchesEntry
  rw [h]

/-- The scan over a list is insensitive to the entries' type tags. -/
theorem findPropertyValueIndexAux_retag (pv : CameraPropertyValue)
    (f : CameraPropertyValue → CamDataType) :
    ∀ (values : List CameraPropertyValue) (i : Int),
      findPropertyValueIndexAux pv (values.map fun v => { v with type := f v }) i =
        findPropertyValueIndexAux pv values i := by
  intro values
  induction values with
  | nil => intro i; rfl
  | cons x rest ih =>
      intro i
      have hm : matchesEntry pv { x with type := f x } = matchesEntry pv x := by
        unfold matchesEntry
        cases pv.type <;> rfl
      simp only [List.map_cons, findPropertyValueIndexAux, hm]
      by_cases h : matchesEntry pv x = true
      · simp [h]
      · simp [h, ih]

/-- For an int-tagged searched value whose bits occur at position `j` in a
list with pairwise distinct bit patterns, the scan started at offset `i`
returns `i + j`. -/
theorem findPropertyValueIndexAux_int (pv : CameraPropertyValue)
    (htag : pv.type = CamDataType.tInt) :
    ∀ (values : List CameraPropertyValue) (j : Nat) (i : Int),
      values[j]? = some pv →
      (values.map CameraPropertyValue.bits).Nodup →
      findPropertyValueIndexAux pv values i = i + j := by
  intro values
  induction values with
  | nil => intro j i hj _; simp at hj
  | cons x rest ih =>
      intro j i hj hnd
      simp only [List.map_cons, List.nodup_cons] at hnd
      cases j with
      | zero =>
          simp only [List.getElem?_cons_zero, Option.some_inj] at hj
          subst hj
          simp [findPropertyValueIndexAux, matchesEntry_tInt _ _ htag]
      | succ j1 =>
          simp only [List.getElem?_cons_succ] at hj
          have hmem : pv ∈ rest := by
            have := List.getElem?_eq_some.mp hj
            obtain ⟨hlt, hv⟩ := this
            exact hv ▸ List.getElem_mem hlt
          have hne : pv.bits ≠ x.bits := by
            intro h
            exact hnd.1 (h ▸ List.mem_map_of_mem CameraPropertyValue.bits hmem)
          have hmb : matchesEntry pv x = false := by
            rw [matchesEntry_tInt pv x htag]
            simp [hne]
          simp only [findPropertyValueIndexAux, hmb]
          rw [ih j1 (i + 1) hj hnd.2]
          push_cast
          ring

/-- The first-occurrence index of an element of a duplicate-free mode list. -/
theorem findPropertyModeIndexAux_nodup (m : CamMode) :
    ∀ (modes : List CamMode) (j : Nat) (i : Int),
      modes[j]? = some m →
      modes.Nodup →
      findPropertyModeIndexAux m modes i = i + j := by
  intro modes
  induction modes with
  | nil => intro j i hj _; simp at hj
  | cons x rest ih =>
      intro j i hj hnd
      rw [List.nodup_cons] at hnd
      cases j with
      | zero =>
          simp only [List.getElem?_cons_zero, Option.some_inj] at hj
          subst hj
          simp [findPropertyModeIndexAux]
      | succ j1 =>
          simp only [List.getElem?_cons_succ] at hj
          have hmem : m ∈ rest := by
            obtain ⟨hlt, hv⟩ := List.getElem?_eq_some.mp hj
            exact hv ▸ List.getElem_mem hlt
          have hne : x ≠ m := by
            intro h
            exact hnd.1 (h ▸ hmem)
          simp only [findPropertyModeIndexAux, if_neg hne]
          rw [ih j1 (i + 1) hj hnd.2]
          push_cast
          ring

theorem findPropertyValueIndex_int (pv : CameraPropertyValue)
    (values : List CameraPropertyValue) (j : Nat)
    (htag : pv.type = CamDataType.tInt)
    (hj : values[j]? = some pv)
    (hnd : (values.map CameraPropertyValue.bits).Nodup) :
    findPropertyValueIndex pv values = (j : Int) := by
  unfold findPropertyValueIndex
  rw [findPropertyValueIndexAux_int pv htag values j 0 hj hnd]
  simp

theorem findPropertyModeIndex_nodup (m : CamMode) (modes : List CamMode) (j : Nat)
    (hj : modes[j]? = some m) (hnd : modes.Nodup) :
    findPropertyModeIndex m modes = (j : Int) := by
  unfold findPropertyModeIndex
  rw [findPropertyModeIndexAux_nodup m modes j 0 hj hnd]
  simp

/-! ### Iteration lemmas for `advanceN` -/

theorem advanceN_one (d : CamDevice) : advanceN 1 d = advStep d := by
  cases h : advStep d <;> simp [advanceN, h]

theorem advanceN_add (a b : Nat) :
    ∀ d : CamDevice, advanceN (a + b) d = (advanceN a d).bind (advanceN b) := by
  induction a with
  | zero => intro d; simp [advanceN]
  | succ a1 ih =>
      intro d
      have h1 : a1 + 1 + b = (a1 + b) + 1 := by omega
      rw [h1]
      show (advStep d).bind (advanceN (a1 + b)) = _
      cases h : advStep d with
      | none => simp [advanceN, h]
      | some d1 => simp [advanceN, h, ih d1]

/-- A camera device in the configuration the cycling claims quantify over:
fixed mode and value lists, a list-typed property, and an uncontended lock. -/
def mkDev (modes : List CamMode) (values : List CameraPropertyValue)
    (m : CamMode) (v : CameraPropertyValue) : CamDevice :=
  ⟨modes, CamConfigType.list, values, m, v, true⟩

theorem getPropertyValueList_mkDev (modes : List CamMode)
    (values : List CameraPropertyValue) (m : CamMode) (v : CameraPropertyValue) :
    getPropertyValueList (mkDev modes values m v) = values := by
  simp [getPropertyValueList, mkDev]

/-- One `applyNextModeOrValue` call in Manual mode with a later value still
available: the device advances to the next listed value. -/
theorem advStep_manual_value (modes : List CamMode) (values : List CameraPropertyValue)
    (i : Nat) (vi vi1 : CameraPropertyValue)
    (htags : ∀ v ∈ values, v.type = CamDataType.tInt)
    (hnd : (values.map CameraPropertyValue.bits).Nodup)
    (hvi : values[i]? = some vi)
    (hvi1 : values[i + 1]? = some vi1) :
    advStep (mkDev modes values CamMode.manual vi) =
      some (mkDev modes values CamMode.manual vi1) := by
  have hmem : vi ∈ values := by
    obtain ⟨hlt, hv⟩ := List.getElem?_eq_some.mp hvi
    exact hv ▸ List.getElem_mem hlt
  have htag : vi.type = CamDataType.tInt := htags vi hmem
  have hfind : findPropertyValueIndex vi values = (i : Int) :=
    findPropertyValueIndex_int vi values i htag hvi hnd
  have hlt1 : i + 1 < values.length := (List.getElem?_eq_some.mp hvi1).1
  unfold advStep applyNextModeOrValue
  rw [if_neg (by simp [mkDev])]
  rw [if_pos (show (mkDev modes values CamMode.manual vi).mode = CamMode.manual from rfl)]
  simp only [getPropertyValueList_mkDev]
  rw [show (mkDev modes values CamMode.manual vi).value = vi from rfl]
  rw [hfind]
  rw [if_neg (by omega : ¬((i : Int) = -1))]
  rw [if_pos (by omega : ((i : Int) + 1 < (values.length : Int)))]
  unfold setPropertyValueToModuloIndex
  simp only [getPropertyValueList_mkDev]
  rw [show ((i : Int)).toNat + 1 = i + 1 by omega]
  rw [Nat.mod_eq_of_lt hlt1]
  rw [show values[i + 1]? = some vi1 from hvi1]
  rfl

/-- Evaluation of the mode-advancing tail of `applyNextModeOrValue` on a
device whose current mode sits at index `j` of a duplicate-free mode list:
the next mode is `modes[(j + 1) % |modes|]`, and if that is Manual the value
is preset to the head of the value list. -/
theorem applyNextModeTail_eval (modes : List CamMode) (values : List CameraPropertyValue)
    (m : CamMode) (v v0 : CameraPropertyValue) (j : Nat) (m2 : CamMode) (pre : List Event)
    (hnd : modes.Nodup) (hj : modes[j]? = some m)
    (hj2 : modes[(j + 1) % modes.length]? = some m2)
    (hv0 : values[0]? = some v0) :
    (applyNextModeTail (mkDev modes values m v) pre).1 =
      some (if m2 = CamMode.manual then mkDev modes values CamMode.manual v0
            else mkDev modes values m2 v) := by
  have hfind : findPropertyModeIndex m modes = (j : Int) :=
    findPropertyModeIndex_nodup m modes j hj hnd
  have hn : 0 < values.length := (List.getElem?_eq_some.mp hv0).1
  unfold applyNextModeTail
  rw [show getPropertyModeList (mkDev modes values m v) = modes from rfl]
  rw [show (mkDev modes values m v).mode = m from rfl]
  rw [hfind]
  rw [if_neg (by omega : ¬((j : Int) = -1))]
  unfold setPropertyModeToModuloIndex
  rw [show getPropertyModeList (mkDev modes values m v) = modes from rfl]
  rw [show ((j : Int)).toNat + 1 = j + 1 by omega]
  rw [hj2]
  by_cases hman : m2 = CamMode.manual
  · subst hman
    simp [setPropertyValueToModuloIndex, getPropertyValueList, mkDev, hv0]
  · simp [hman, mkDev]

/-- One `applyNextModeOrValue` call from a non-Manual mode found at index `j`
of the mode list. -/
theorem advStep_nonmanual (modes : List CamMode) (values : List CameraPropertyValue)
    (m : CamMode) (v v0 : CameraPropertyValue) (j : Nat) (m2 : CamMode)
    (hm : m ≠ CamMode.manual)
    (hnd : modes.Nodup) (hj : modes[j]? = some m)
    (hj2 : modes[(j + 1) % modes.length]? = some m2)
    (hv0 : values[0]? = some v0) :
    advStep (mkDev modes values m v) =
      some (if m2 = CamMode.manual then mkDev modes values CamMode.manual v0
            else mkDev modes values m2 v) := by
  unfold advStep applyNextModeOrValue
  rw [if_neg (by simp [mkDev])]
  rw [if_neg (show ¬((mkDev modes values m v).mode = CamMode.manual) from hm)]
  exact applyNextModeTail_eval modes values m v v0 j m2 _ hnd hj hj2 hv0

/-- One `applyNextModeOrValue` call in Manual mode with the last listed value
current: the call falls through to the mode-advancing tail. -/
theorem advStep_manual_last (modes : List CamMode) (values : List CameraPropertyValue)
    (v0 vlast : CameraPropertyValue) (k : Nat) (m2 : CamMode)
    (htags : ∀ v ∈ values, v.type = CamDataType.tInt)
    (hndv : (values.map CameraPropertyValue.bits).Nodup)
    (hndm : modes.Nodup)
    (hk : modes[k]? = some CamMode.manual)
    (hlast : values[values.length - 1]? = some vlast)
    (hm2 : modes[(k + 1) % modes.length]? = some m2)
    (hv0 : values[0]? = some v0) :
    advStep (mkDev modes values CamMode.manual vlast) =
      some (if m2 = CamMode.manual then mkDev modes values CamMode.manual v0
            else mkDev modes values m2 vlast) := by
  have hmem : vlast ∈ values := by
    obtain ⟨hlt, hv⟩ := List.getElem?_eq_some.mp hlast
    exact hv ▸ List.getElem_mem hlt
  have hn : 0 < values.length := (List.getElem?_eq_some.mp hv0).1
  have hfind : findPropertyValueIndex vlast values = ((values.length - 1 : Nat) : Int) :=
    findPropertyValueIndex_int vlast values (values.length - 1) (htags vlast hmem) hlast hndv
  unfold advStep applyNextModeOrValue
  rw [if_neg (by simp [mkDev])]
  rw [if_pos (show (mkDev modes values CamMode.manual vlast).mode = CamMode.manual from rfl)]
  simp only [getPropertyValueList_mkDev]
  rw [show (mkDev modes values CamMode.manual vlast).value = vlast from rfl]
  rw [hfind]
  rw [if_neg (by omega : ¬(((values.length - 1 : Nat) : Int) = -1))]
  rw [if_neg (by omega : ¬(((values.length - 1 : Nat) : Int) + 1 < (values.length : Int)))]
  exact applyNextModeTail_eval modes values CamMode.manual vlast v0 k m2 _ hndm hk hm2 hv0

/-- Positions holding the same element of a duplicate-free list coincide. -/
theorem nodup_getElem?_eq {α : Type} [DecidableEq α] (l : List α) (a b : Nat) (x : α)
    (hnd : l.Nodup) (ha : l[a]? = some x) (hb : l[b]? = some x) : a = b := by
  obtain ⟨hal, hae⟩ := List.getElem?_eq_some.mp ha
  obtain ⟨hbl, hbe⟩ := List.getElem?_eq_some.mp hb
  exact (List.Nodup.getElem_inj_iff hnd).mp (hae.trans hbe.symm)

/-- The index `(k + t) % |modes|` differs from `k` while `1 ≤ t < |modes|`. -/
theorem add_mod_ne_self (k t len : Nat) (hk : k < len) (ht1 : 1 ≤ t) (ht2 : t < len) :
    (k + t) % len ≠ k := by
  rcases Nat.lt_or_ge (k + t) len with h | h
  · rw [Nat.mod_eq_of_lt h]; omega
  · rw [Nat.mod_eq_sub_mod h, Nat.mod_eq_of_lt (by omega : k + t - len < len)]; omega

/-- The Manual-mode value sub-cycle: from the value at index `i`, `t` calls
with `i + t = |values| - 1` reach the last listed value. -/
theorem advanceN_value_phase (modes : List CamMode) (values : List CameraPropertyValue)
    (htags : ∀ v ∈ values, v.type = CamDataType.tInt)
    (hndv : (values.map CameraPropertyValue.bits).Nodup) :
    ∀ (t i : Nat) (vi vlast : CameraPropertyValue),
      i + t = values.length - 1 →
      values[i]? = some vi →
      values[values.length - 1]? = some vlast →
      advanceN t (mkDev modes values CamMode.manual vi) =
        some (mkDev modes values CamMode.manual vlast) := by
  intro t
  induction t with
  | zero =>
      intro i vi vlast hsum hvi hvlast
      rw [Nat.add_zero] at hsum
      rw [hsum] at hvi
      rw [hvi] at hvlast
      rw [Option.some_inj] at hvlast
      rw [hvlast]
      rfl
  | succ t1 ih =>
      intro i vi vlast hsum hvi hvlast
      have hil : i < values.length := (List.getElem?_eq_some.mp hvi).1
      have hlt : i + 1 < values.length := by omega
      obtain ⟨vi1, hvi1⟩ : ∃ v, values[i + 1]? = some v :=
        ⟨_, List.getElem?_eq_getElem hlt⟩
      rw [show advanceN (t1 + 1) (mkDev modes values CamMode.manual vi) =
            (advStep (mkDev modes values CamMode.manual vi)).bind (advanceN t1) from rfl]
      rw [advStep_manual_value modes values i vi vi1 htags hndv hvi hvi1]
      rw [Option.some_bind]
      exact ih (i + 1) vi1 vlast (by omega) hvi1 hvlast

/-- The mode cycle: from Manual on the last listed value, `t ≤ |modes|` calls
reach the mode `t` places after Manual in the (duplicate-free) mode list,
landing back on Manual — with the value preset to the list head — when
`t = |modes|`. -/
theorem advanceN_mode_phase (modes : List CamMode) (values : List CameraPropertyValue)
    (v0 vlast : CameraPropertyValue) (k : Nat)
    (htags : ∀ v ∈ values, v.type = CamDataType.tInt)
    (hndv : (values.map CameraPropertyValue.bits).Nodup)
    (hndm : modes.Nodup)
    (hk : modes[k]? = some CamMode.manual)
    (hlast : values[values.length - 1]? = some vlast)
    (hv0 : values[0]? = some v0) :
    ∀ t, 1 ≤ t → t ≤ modes.length →
      ∀ mt, modes[(k + t) % modes.length]? = some mt →
      advanceN t (mkDev modes values CamMode.manual vlast) =
        some (if mt = CamMode.manual then mkDev modes values CamMode.manual v0
              else mkDev modes values mt vlast) := by
  have hkM : k < modes.length := (List.getElem?_eq_some.mp hk).1
  intro t
  induction t with
  | zero => intro h1; omega
  | succ t1 ih =>
      intro h1 h2 mt hmt
      cases Nat.eq_zero_or_pos t1 with
      | inl ht0 =>
          subst ht0
          rw [advanceN_one]
          exact advStep_manual_last modes values v0 vlast k mt htags hndv hndm hk hlast hmt hv0
      | inr ht1 =>
          have ht1M : t1 < modes.length := by omega
          obtain ⟨mt1, hmt1⟩ : ∃ m, modes[(k + t1) % modes.length]? = some m :=
            ⟨_, List.getElem?_eq_getElem (Nat.mod_lt _ (by omega))⟩
          have hmt1ne : mt1 ≠ CamMode.manual := by
            intro h
            rw [h] at hmt1
            exact add_mod_ne_self k t1 modes.length hkM ht1 ht1M
              (nodup_getElem?_eq modes _ k CamMode.manual hndm hmt1 hk)
          rw [show t1 + 1 = t1 + 1 from rfl, advanceN_add t1 1]
          rw [ih ht1 (by omega) mt1 hmt1]
          rw [if_neg hmt1ne]
          rw [Option.some_bind, advanceN_one]
          have hidx : ((k + t1) % modes.length + 1) % modes.length =
              (k + (t1 + 1)) % modes.length := by
            rw [Nat.mod_add_mod, Nat.add_assoc]
          exact advStep_nonmanual modes values mt1 vlast v0 ((k + t1) % modes.length) mt
            hmt1ne hndm hmt1 (by rw [hidx]; exact hmt) hv0

/-- A concrete device for the cycling scenarios: modes [Off, Auto, Manual],
int-typed values [100, 200], config type List, lock uncontended. -/
def devOffInt100 : CamDevice :=
  ⟨[CamMode.off, CamMode.auto, CamMode.manual], CamConfigType.list,
    [⟨CamDataType.tInt, 100⟩, ⟨CamDataType.tInt, 200⟩], CamMode.off,
    ⟨CamDataType.tInt, 100⟩, true⟩

/-- C1, counterexample: with modes [Off, Auto, Manual] and values
[int 100, int 200] (so N = 3 * 2 = 6), starting from (Off, 100), six
`applyNextModeOrValue` calls land on (Manual, 100), not back on the original
pair — the spec's full-cycle count is wrong because the orbit has a transient
prefix and the recurrent cycle has length |modes| - 1 + |values| = 4. -/
theorem c1_full_cycle_counterexample :
    advanceN 6 devOffInt100 = some { devOffInt100 with mode := CamMode.manual } ∧
    ({ devOffInt100 with mode := CamMode.manual } : CamDevice) ≠ devOffInt100 := by
  constructor
  · decide
  · decide

/-- C1, amended: for any duplicate-free mode list containing Manual, any
nonempty list of int-typed values with pairwise distinct payloads, a
list-typed property and an uncontended lock, starting from Manual with the
first listed value, `applyNextModeOrValue` applied |modes| - 1 + |values|
times returns the device to the original (mode, value) pair.  (The spec's
count |modes| * max(|values|, 1) and its arbitrary start point do not hold.) -/
theorem c1_cycle_closure_amended (modes : List CamMode)
    (values : List CameraPropertyValue) (k : Nat) (v0 : CameraPropertyValue)
    (hndm : modes.Nodup)
    (hk : modes[k]? = some CamMode.manual)
    (htags : ∀ v ∈ values, v.type = CamDataType.tInt)
    (hndv : (values.map CameraPropertyValue.bits).Nodup)
    (hv0 : values[0]? = some v0) :
    advanceN (modes.length - 1 + values.length)
        (mkDev modes values CamMode.manual v0) =
      some (mkDev modes values CamMode.manual v0) := by
  have hkM : k < modes.length := (List.getElem?_eq_some.mp hk).1
  have hn : 0 < values.length := (List.getElem?_eq_some.mp hv0).1
  obtain ⟨vlast, hvlast⟩ : ∃ v, values[values.length - 1]? = some v :=
    ⟨_, List.getElem?_eq_getElem (by omega)⟩
  rw [show modes.length - 1 + values.length =
        (values.length - 1) + modes.length by omega]
  rw [advanceN_add]
  rw [advanceN_value_phase modes values htags hndv (values.length - 1) 0 v0 vlast
        (by omega) hv0 hvlast]
  rw [Option.some_bind]
  have hfin : modes[(k + modes.length) % modes.length]? = some CamMode.manual := by
    rw [Nat.add_mod_right, Nat.mod_eq_of_lt hkM]
    exact hk
  rw [advanceN_mode_phase modes values v0 vlast k htags hndv hndm hk hvlast hv0
        modes.length (by omega) (by omega) CamMode.manual hfin]
  rw [if_pos rfl]

/-- C1, witness: the amended closure at the concrete scenario device —
modes [Off, Auto, Manual], values [int 100, int 200], start (Manual, 100),
period 3 - 1 + 2 = 4. -/
theorem c1_cycle_closure_amended_witness :
    advanceN 4 (mkDev [CamMode.off, CamMode.auto, CamMode.manual]
        [⟨CamDataType.tInt, 100⟩, ⟨CamDataType.tInt, 200⟩]
        CamMode.manual ⟨CamDataType.tInt, 100⟩) =
      some (mkDev [CamMode.off, CamMode.auto, CamMode.manual]
        [⟨CamDataType.tInt, 100⟩, ⟨CamDataType.tInt, 200⟩]
        CamMode.manual ⟨CamDataType.tInt, 100⟩) :=
  c1_cycle_closure_amended [CamMode.off, CamMode.auto, CamMode.manual]
    [⟨CamDataType.tInt, 100⟩, ⟨CamDataType.tInt, 200⟩] 2 ⟨CamDataType.tInt, 100⟩
    (by decide) (by decide) (by decide) (by decide) (by decide)

/-- The C3 scenario device: modes [Off, Auto, Manual],
values [int 100, int 200], current state (Manual, 200). -/
def devManualInt200 : CamDevice :=
  { devOffInt100 with mode := CamMode.manual, value := ⟨CamDataType.tInt, 200⟩ }

/-- C3, counterexample: from (Manual, 200) — value index 1 being the last —
one `applyNextModeOrValue` call sets the mode to Off (the Manual index 2
wraps to (2 + 1) % 3 = 0), not to Auto as the claim states. -/
theorem c3_scenario_counterexample :
    (advanceN 1 devManualInt200).map CamDevice.mode = some CamMode.off ∧
    CamMode.off ≠ CamMode.auto := by
  constructor
  · decide
  · decide

/-- C3, amended: from (Manual, 200) the first `applyNextModeOrValue` call
wraps the mode to Off (keeping value 200); the second sets Auto; the third
sets Manual with the value preset to values[0] = 100 (that last transition is
the part of the claim that does hold, from Auto rather than as the second
call). -/
theorem c3_scenario_amended :
    advanceN 1 devManualInt200 = some { devManualInt200 with mode := CamMode.off } ∧
    advanceN 2 devManualInt200 = some { devManualInt200 with mode := CamMode.auto } ∧
    advanceN 3 devManualInt200 =
      some { devManualInt200 with
              mode := CamMode.manual
              value := ⟨CamDataType.tInt, 100⟩ } := by
  refine ⟨by decide, by decide, by decide⟩

/-- Comparison via `doubleEqBits` against the pattern of 1.0 (0x3FF0000000000000, which is
neither NaN nor a zero) holds exactly on that same pattern. -/
theorem doubleEqBits_one (b : Nat) (h : b ≠ 4607182418800017408) :
    doubleEqBits 4607182418800017408 b = false := by
  unfold doubleEqBits
  rw [show isNaNBits 4607182418800017408 = false from by decide]
  rw [show isZeroBits 4607182418800017408 = false from by decide]
  cases hb : isNaNBits b with
  | true => simp
  | false => simp [Ne.symm h]

/-- C2, counterexample: the searched value double(1.0) (bit pattern
0x3FF0000000000000) matches an entry whose type tag is Int — the function
never inspects the entry's tag, so an int-typed entry whose int64 payload is
4607182418800017408 compares equal through the double member and is returned
at index 0 instead of the claimed -1. -/
theorem c2_typed_equality_counterexample :
    CamDataType.tDouble ≠ CamDataType.tInt ∧
    findPropertyValueIndex ⟨CamDataType.tDouble, 4607182418800017408⟩
        [⟨CamDataType.tInt, 4607182418800017408⟩] = 0 ∧
    findPropertyValueIndex ⟨CamDataType.tDouble, 4607182418800017408⟩
        [⟨CamDataType.tInt, 4607182418800017408⟩] ≠ -1 := by
  refine ⟨by decide, by decide, by decide⟩

/-- A scan over entries none of which matches returns -1 from any offset. -/
theorem findPropertyValueIndexAux_none (pv : CameraPropertyValue) :
    ∀ (values : List CameraPropertyValue) (i : Int),
      (∀ v ∈ values, matchesEntry pv v = false) →
      findPropertyValueIndexAux pv values i = -1 := by
  intro values
  induction values with
  | nil => intro i _; rfl
  | cons x rest ih =>
      intro i h
      have hx : matchesEntry pv x = false := h x (List.mem_cons_self x rest)
      simp only [findPropertyValueIndexAux, hx, Bool.false_eq_true, if_false]
      exact ih (i + 1) fun v hv => h v (List.mem_cons_of_mem x hv)

/-- C2, amended: `findPropertyValueIndex` selects the comparison by the
searched value's type tag only and never inspects an entry's tag — retagging
the entries of any list leaves the result unchanged — and searching
double(1.0) in a value list returns -1 exactly in the absence of an entry
whose stored 64-bit payload equals 1.0's bit pattern (so it does return -1
for int-typed entries with ordinary payloads, but not because of any type
check). -/
theorem c2_entry_tag_ignored_amended :
    (∀ (pv : CameraPropertyValue) (values : List CameraPropertyValue)
        (f : CameraPropertyValue → CamDataType),
      findPropertyValueIndex pv (values.map fun v => { v with type := f v }) =
        findPropertyValueIndex pv values) ∧
    (∀ values : List CameraPropertyValue,
      (∀ v ∈ values, v.bits ≠ 4607182418800017408) →
      findPropertyValueIndex ⟨CamDataType.tDouble, 4607182418800017408⟩ values = -1) := by
  constructor
  · intro pv values f
    exact findPropertyValueIndexAux_retag pv f values 0
  · intro values h
    unfold findPropertyValueIndex
    exact findPropertyValueIndexAux_none _ values 0 fun v hv => by
      unfold matchesEntry
      exact doubleEqBits_one v.bits (h v hv)

/-- C2, witness for the amended claim: retagging the one-entry list
[int 100] as double-tagged entries leaves the scan result unchanged, and
double(1.0) against the int-typed entries [int 100, int 200] — whose payloads
differ from 1.0's bit pattern — returns -1. -/
theorem c2_entry_tag_ignored_amended_witness :
    findPropertyValueIndex ⟨CamDataType.tInt, 100⟩
        (([⟨CamDataType.tInt, 100⟩] :
            List CameraPropertyValue).map fun v => { v with type := CamDataType.tDouble }) =
      findPropertyValueIndex ⟨CamDataType.tInt, 100⟩ [⟨CamDataType.tInt, 100⟩] ∧
    findPropertyValueIndex ⟨CamDataType.tDouble, 4607182418800017408⟩
        [⟨CamDataType.tInt, 100⟩, ⟨CamDataType.tInt, 200⟩] = -1 :=
  ⟨c2_entry_tag_ignored_amended.1 ⟨CamDataType.tInt, 100⟩ [⟨CamDataType.tInt, 100⟩]
      (fun _ => CamDataType.tDouble),
    c2_entry_tag_ignored_amended.2 [⟨CamDataType.tInt, 100⟩, ⟨CamDataType.tInt, 200⟩]
      (by decide)⟩

/-- C5: in Manual mode with the current value found at index `i` and a later
value available (`i + 1 < |values|`), one `applyNextModeOrValue` call issues
exactly the trace lock, three reads, one `setPropertyValue` of the value at
index `i + 1`, and the unlock — a single device mutation, no mode set, and
the unlock after the mutation — and returns the device with only the value
changed. -/
theorem c5_manual_single_mutation (d : CamDevice) (i : Nat)
    (hlock : d.lockAvailable = true)
    (hmode : d.mode = CamMode.manual)
    (hfind : findPropertyValueIndex d.value (getPropertyValueList d) = (i : Int))
    (hlt : i + 1 < (getPropertyValueList d).length) :
    ∃ v1, (getPropertyValueList d)[i + 1]? = some v1 ∧
      applyNextModeOrValue d =
        (some { d with value := v1 },
          [Event.lock true, Event.getPropertyMode, Event.getModeList,
           Event.getPropertyValue, Event.getValueList,
           Event.setPropertyValue v1, Event.unlock]) := by
  obtain ⟨v1, hv1⟩ : ∃ v, (getPropertyValueList d)[i + 1]? = some v :=
    ⟨_, List.getElem?_eq_getElem hlt⟩
  refine ⟨v1, hv1, ?_⟩
  unfold applyNextModeOrValue
  rw [if_neg (by rw [hlock]; simp)]
  rw [if_pos hmode]
  simp only [hfind]
  rw [if_neg (by omega : ¬((i : Int) = -1))]
  rw [if_pos (by omega : ((i : Int) + 1 < ((getPropertyValueList d).length : Int)))]
  unfold setPropertyValueToModuloIndex
  rw [show ((i : Int)).toNat + 1 = i + 1 by omega]
  rw [Nat.mod_eq_of_lt hlt]
  rw [hv1]
  simp

/-- C5, witness: the Manual-mode single-mutation trace at the concrete device
(Manual, int 100) with values [int 100, int 200], current value index 0. -/
theorem c5_manual_single_mutation_witness :
    ∃ v1, (getPropertyValueList { devOffInt100 with mode := CamMode.manual })[0 + 1]? =
        some v1 ∧
      applyNextModeOrValue { devOffInt100 with mode := CamMode.manual } =
        (some { devOffInt100 with mode := CamMode.manual, value := v1 },
          [Event.lock true, Event.getPropertyMode, Event.getModeList,
           Event.getPropertyValue, Event.getValueList,
           Event.setPropertyValue v1, Event.unlock]) :=
  c5_manual_single_mutation { devOffInt100 with mode := CamMode.manual } 0
    (by decide) (by decide) (by decide) (by decide)

/-- Modulo-index access into the re-fetched value list succeeds (for every
non-negative index) exactly when that list is nonempty. -/
theorem setPropertyValueToModuloIndex_isSome (d : CamDevice) (index : Nat) :
    (setPropertyValueToModuloIndex d index).isSome = true ↔
      getPropertyValueList d ≠ [] := by
  unfold setPropertyValueToModuloIndex
  constructor
  · intro hs hnil
    rw [hnil] at hs
    simp at hs
  · intro hne
    have hlen : 0 < (getPropertyValueList d).length := List.length_pos.mpr hne
    rw [List.getElem?_eq_getElem (Nat.mod_lt _ hlen)]
    rfl

/-- C9: `setPropertyValueToModuloIndex` is in-bounds for every non-negative
index exactly when the re-fetched value list is nonempty, and
`applyNextModeOrValue` reaches the empty-list (modulo-by-zero / out-of-bounds)
branch: on a device with mode Auto, mode list [Off, Auto, Manual] and a
non-List config type (so `getPropertyValueList` returns the empty vector),
the mode cycle selects Manual and the value preset hits the error branch. -/
theorem c9_empty_value_list_ub_reachable :
    (∀ (d : CamDevice) (index : Nat),
        (setPropertyValueToModuloIndex d index).isSome = true ↔
          getPropertyValueList d ≠ []) ∧
    ({ devOffInt100 with
        configType := CamConfigType.range
        mode := CamMode.auto } : CamDevice).configType ≠ CamConfigType.list ∧
    (applyNextModeOrValue
        { devOffInt100 with
          configType := CamConfigType.range
          mode := CamMode.auto }).1 = none := by
  refine ⟨setPropertyValueToModuloIndex_isSome, by decide, by decide⟩

/-- C9, witness: the in-bounds criterion instantiated at the concrete
scenario device and index 5. -/
theorem c9_empty_value_list_ub_reachable_witness :
    (setPropertyValueToModuloIndex devOffInt100 5).isSome = true ↔
      getPropertyValueList devOffInt100 ≠ [] :=
  c9_empty_value_list_ub_reachable.1 devOffInt100 5

/-- In the mode-advancing tail, a `setPropertyMode Manual` in the trace is
always the last event before the unlock and is immediately preceded by the
preset `setPropertyValue` of the value-list head. -/
theorem applyNextModeTail_preset (d : CamDevice) (pre : List Event)
    (hpre : Event.setPropertyMode CamMode.manual ∉ pre)
    (hmem : Event.setPropertyMode CamMode.manual ∈ (applyNextModeTail d pre).2) :
    ∃ (l : List Event) (v0 : CameraPropertyValue),
      (getPropertyValueList d)[0]? = some v0 ∧
      (applyNextModeTail d pre).2 =
        l ++ [Event.setPropertyValue v0, Event.setPropertyMode CamMode.manual,
              Event.unlock] := by
  unfold applyNextModeTail at hmem ⊢
  by_cases hfi : findPropertyModeIndex d.mode (getPropertyModeList d) = -1
  · rw [if_pos hfi] at hmem
    exfalso
    rcases List.mem_append.mp hmem with h | h
    · exact hpre h
    · simp at h
  · rw [if_neg hfi] at hmem ⊢
    cases hset : setPropertyModeToModuloIndex d
        ((findPropertyModeIndex d.mode (getPropertyModeList d)).toNat + 1) with
    | none =>
        rw [hset] at hmem
        simp only [] at hmem
        exact absurd hmem hpre
    | some p =>
        obtain ⟨d1, evs⟩ := p
        rw [hset] at hmem
        unfold setPropertyModeToModuloIndex at hset
        split at hset
        next => exact absurd hset (by simp)
        next nextMode heq =>
          split at hset
          next hman =>
            split at hset
            next => exact absurd hset (by simp)
            next d2 evs2 heq2 =>
              rw [Option.some_inj, Prod.mk.injEq] at hset
              unfold setPropertyValueToModuloIndex at heq2
              rw [Nat.zero_mod] at heq2
              split at heq2
              next => exact absurd heq2 (by simp)
              next v1 heq3 =>
                rw [Option.some_inj, Prod.mk.injEq] at heq2
                refine ⟨pre, v1, heq3, ?_⟩
                rw [← hset.2, ← heq2.2, hman]
                simp
          next hman =>
            rw [Option.some_inj, Prod.mk.injEq] at hset
            exfalso
            rw [← hset.2] at hmem
            simp at hmem
            rcases hmem with h | h
            · exact hpre h
            · exact hman h.symm

/-- C6: whenever an `applyNextModeOrValue` call sets the mode to Manual, the
trace ends with the preset `setPropertyValue` of the value-list head
immediately followed by `setPropertyMode Manual` and the unlock — the value
is established before the mode, never the mode first. -/
theorem c6_value_preset_before_manual_mode (d : CamDevice)
    (hmem : Event.setPropertyMode CamMode.manual ∈ (applyNextModeOrValue d).2) :
    ∃ (l : List Event) (v0 : CameraPropertyValue),
      (getPropertyValueList d)[0]? = some v0 ∧
      (applyNextModeOrValue d).2 =
        l ++ [Event.setPropertyValue v0, Event.setPropertyMode CamMode.manual,
              Event.unlock] := by
  unfold applyNextModeOrValue at hmem ⊢
  by_cases hlock : d.lockAvailable = false
  · rw [if_pos hlock] at hmem
    simp at hmem
  · rw [if_neg hlock] at hmem ⊢
    by_cases hmode : d.mode = CamMode.manual
    · rw [if_pos hmode] at hmem ⊢
      simp only [] at hmem ⊢
      by_cases hidx : findPropertyValueIndex d.value (getPropertyValueList d) = -1
      · rw [if_pos hidx] at hmem
        simp at hmem
      · rw [if_neg hidx] at hmem ⊢
        by_cases hlt : findPropertyValueIndex d.value (getPropertyValueList d) + 1 <
            ((getPropertyValueList d).length : Int)
        · rw [if_pos hlt] at hmem ⊢
          cases hset : setPropertyValueToModuloIndex d
              ((findPropertyValueIndex d.value (getPropertyValueList d)).toNat + 1) with
          | none =>
              rw [hset] at hmem
              simp at hmem
          | some p =>
              obtain ⟨d1, evs⟩ := p
              rw [hset] at hmem
              unfold setPropertyValueToModuloIndex at hset
              split at hset
              next => exact absurd hset (by simp)
              next v1 heq =>
                rw [Option.some_inj, Prod.mk.injEq] at hset
                exfalso
                rw [← hset.2] at hmem
                simp at hmem
        · rw [if_neg hlt] at hmem ⊢
          exact applyNextModeTail_preset d _ (by decide) hmem
    · rw [if_neg hmode] at hmem ⊢
      exact applyNextModeTail_preset d _ (by decide) hmem

/-- C6, witness: at the device (Auto, 200) the mode cycle selects Manual, and
the trace shows the preset of values[0] directly before `setPropertyMode
Manual`. -/
theorem c6_value_preset_before_manual_mode_witness :
    ∃ (l : List Event) (v0 : CameraPropertyValue),
      (getPropertyValueList { devOffInt100 with mode := CamMode.auto })[0]? = some v0 ∧
      (applyNextModeOrValue { devOffInt100 with mode := CamMode.auto }).2 =
        l ++ [Event.setPropertyValue v0, Event.setPropertyMode CamMode.manual,
              Event.unlock] :=
  c6_value_preset_before_manual_mode { devOffInt100 with mode := CamMode.auto }
    (by decide)

/-- The mode-advancing tail issues exactly one unlock on every defined exit
path, given an unlock-free prefix. -/
theorem applyNextModeTail_unlock_count (d : CamDevice) (pre : List Event)
    (hcount : pre.count Event.unlock = 0) :
    (applyNextModeTail d pre).1 ≠ none →
      ((applyNextModeTail d pre).2).count Event.unlock = 1 := by
  unfold applyNextModeTail
  by_cases hfi : findPropertyModeIndex d.mode (getPropertyModeList d) = -1
  · rw [if_pos hfi]
    intro _
    simp [List.count_append, hcount]
  · rw [if_neg hfi]
    cases hset : setPropertyModeToModuloIndex d
        ((findPropertyModeIndex d.mode (getPropertyModeList d)).toNat + 1) with
    | none =>
        intro h
        exact absurd rfl h
    | some p =>
        obtain ⟨d1, evs⟩ := p
        intro _
        have hevs : evs.count Event.unlock = 0 := by
          unfold setPropertyModeToModuloIndex at hset
          split at hset
          next => exact absurd hset (by simp)
          next nextMode heq =>
            split at hset
            next hman =>
              split at hset
              next => exact absurd hset (by simp)
              next d2 evs2 heq2 =>
                rw [Option.some_inj, Prod.mk.injEq] at hset
                have hevs2 : evs2.count Event.unlock = 0 := by
                  unfold setPropertyValueToModuloIndex at heq2
                  split at heq2
                  next => exact absurd heq2 (by simp)
                  next v1 heq3 =>
                    rw [Option.some_inj, Prod.mk.injEq] at heq2
                    rw [← heq2.2]
                    simp
                rw [← hset.2]
                simp [List.count_append, hevs2]
            next hman =>
              rw [Option.some_inj, Prod.mk.injEq] at hset
              rw [← hset.2]
              simp
        simp [List.count_append, hcount, hevs]

/-- C4: lock discipline of the three locking `CameraManager` operations — in
every defined run whose trace shows a successful `varjo_Lock`, `varjo_Unlock`
is issued exactly once; a run that never acquired the lock issues no unlock
and no mutating device call. -/
theorem c4_lock_discipline (op : CamOp) (d : CamDevice) :
    (Event.lock true ∈ (runCamOp op d).2 → (runCamOp op d).1 ≠ none →
      (runCamOp op d).2.count Event.unlock = 1) ∧
    (Event.lock true ∉ (runCamOp op d).2 →
      (runCamOp op d).2.count Event.unlock = 0 ∧
      ∀ e ∈ (runCamOp op d).2, e.isMutation = false) := by
  cases op with
  | setAuto =>
      unfold runCamOp setAutoMode
      simp only []
      by_cases hsup : ((getPropertyModeList d).contains CamMode.auto) = false
      · rw [if_pos hsup]
        refine ⟨fun h => by simp at h, fun _ => ⟨rfl, ?_⟩⟩
        intro e he
        simp at he
        subst he
        rfl
      · rw [if_neg hsup]
        by_cases hlock : d.lockAvailable = false
        · rw [if_pos hlock]
          refine ⟨fun h => by simp at h, fun _ => ⟨rfl, ?_⟩⟩
          intro e he
          simp at he
          rcases he with h | h <;> subst h <;> rfl
        · rw [if_neg hlock]
          refine ⟨fun _ _ => rfl, fun h => absurd (by simp) h⟩
  | reset =>
      unfold runCamOp resetPropertiesToDefaults
      simp only []
      by_cases hlock : d.lockAvailable = false
      · rw [if_pos hlock]
        refine ⟨fun h => by simp at h, fun _ => ⟨rfl, ?_⟩⟩
        intro e he
        simp at he
        rcases he with h | h <;> subst h <;> rfl
      · rw [if_neg hlock]
        refine ⟨fun _ _ => rfl, fun h => absurd (by simp) h⟩
  | advance =>
      unfold runCamOp applyNextModeOrValue
      simp only []
      by_cases hlock : d.lockAvailable = false
      · rw [if_pos hlock]
        refine ⟨fun h => by simp at h, fun _ => ⟨rfl, ?_⟩⟩
        intro e he
        simp at he
        rcases he with h | h <;> subst h <;> rfl
      · rw [if_neg hlock]
        by_cases hmode : d.mode = CamMode.manual
        · rw [if_pos hmode]
          by_cases hidx : findPropertyValueIndex d.value (getPropertyValueList d) = -1
          · rw [if_pos hidx]
            refine ⟨fun _ _ => rfl, fun h => absurd (by simp) h⟩
          · rw [if_neg hidx]
            by_cases hlt : findPropertyValueIndex d.value (getPropertyValueList d) + 1 <
                ((getPropertyValueList d).length : Int)
            · rw [if_pos hlt]
              cases hset : setPropertyValueToModuloIndex d
                  ((findPropertyValueIndex d.value (getPropertyValueList d)).toNat + 1) with
              | none =>
                  refine ⟨fun _ h => absurd rfl h, fun h => absurd (by simp) h⟩
              | some p =>
                  obtain ⟨d1, evs⟩ := p
                  have hevs : evs.count Event.unlock = 0 := by
                    unfold setPropertyValueToModuloIndex at hset
                    split at hset
                    next => exact absurd hset (by simp)
                    next v1 heq =>
                      rw [Option.some_inj, Prod.mk.injEq] at hset
                      rw [← hset.2]
                      simp
                  refine ⟨fun _ _ => ?_, fun h => absurd (by simp) h⟩
                  simp [List.count_append, List.count_cons, hevs]
            · rw [if_neg hlt]
              refine ⟨fun _ h => applyNextModeTail_unlock_count d _ (by decide) h,
                fun h => absurd ?_ h⟩
              unfold applyNextModeTail
              by_cases hfi : findPropertyModeIndex d.mode (getPropertyModeList d) = -1
              · rw [if_pos hfi]; simp
              · rw [if_neg hfi]
                cases hset : setPropertyModeToModuloIndex d
                    ((findPropertyModeIndex d.mode (getPropertyModeList d)).toNat + 1) with
                | none => simp
                | some p => obtain ⟨d1, evs⟩ := p; simp
        · rw [if_neg hmode]
          refine ⟨fun _ h => applyNextModeTail_unlock_count d _ (by decide) h,
            fun h => absurd ?_ h⟩
          unfold applyNextModeTail
          by_cases hfi : findPropertyModeIndex d.mode (getPropertyModeList d) = -1
          · rw [if_pos hfi]; simp
          · rw [if_neg hfi]
            cases hset : setPropertyModeToModuloIndex d
                ((findPropertyModeIndex d.mode (getPropertyModeList d)).toNat + 1) with
            | none => simp
            | some p => obtain ⟨d1, evs⟩ := p; simp

/-- C4, witness: one advance call on the concrete device (Off, 100) with the
lock available acquires and releases exactly once. -/
theorem c4_lock_discipline_witness :
    (runCamOp CamOp.advance devOffInt100).2.count Event.unlock = 1 :=
  (c4_lock_discipline CamOp.advance devOffInt100).1 (by decide) (by decide)

/-- C7: `toggleChromaKeying` with the current shadow value returns false and
issues no device call; with a different value it issues exactly one
`varjo_MRSetChromaKey` call, and updates the shadow flag (returning true)
exactly when the call reports no error — on a device error the flag is left
unchanged and false is returned. -/
theorem c7_toggle_chroma_keying (st : ChromaState) (enabled callErr : Bool) :
    (enabled = st.chromaKeyEnabled →
      toggleChromaKeying st enabled callErr = (false, st, [ChromaEvent.logWarning])) ∧
    (enabled ≠ st.chromaKeyEnabled →
      (toggleChromaKeying st enabled callErr).2.2 = [ChromaEvent.setChromaKey enabled] ∧
      (callErr = false →
        toggleChromaKeying st enabled callErr =
          (true, { st with chromaKeyEnabled := enabled },
            [ChromaEvent.setChromaKey enabled])) ∧
      (callErr = true →
        toggleChromaKeying st enabled callErr =
          (false, st, [ChromaEvent.setChromaKey enabled]))) := by
  unfold toggleChromaKeying
  constructor
  · intro h
    rw [if_pos h]
  · intro h
    rw [if_neg h]
    refine ⟨?_, ?_, ?_⟩
    · cases callErr <;> simp
    · intro he
      rw [if_pos he]
    · intro he
      subst he
      simp

/-- C7, witness: enabling from the disabled shadow state with an error-free
device call flips the shadow flag and returns true. -/
theorem c7_toggle_chroma_keying_witness :
    toggleChromaKeying ⟨false, false⟩ true false =
      (true, { configLocked := false, chromaKeyEnabled := true },
        [ChromaEvent.setChromaKey true]) :=
  ((c7_toggle_chroma_keying ⟨false, false⟩ true false).2 (by decide)).2.1 rfl

/-- C8: `setConfig` while the lock shadow is Unlocked logs an error first but
still issues the `varjo_MRSetChromaKeyConfig` device call (the
`CHECK_CONFIG_LOCK` guard warns, it does not block), and the returned boolean
reflects only whether that call reported no error. -/
theorem c8_set_config_unlocked {Cfg : Type} (st : ChromaState) (index : Int)
    (config : Cfg) (callErr : Bool)
    (hunlocked : st.configLocked = false) :
    setConfig st index config callErr =
      (decide (callErr = false),
        [ChromaEvent.logError, ChromaEvent.setChromaKeyConfig index]) := by
  unfold setConfig
  rw [if_pos hunlocked]
  rfl

/-- C8, witness: a `setConfig` call on slot 3 with the lock shadow Unlocked
and an error-free device call logs the error, issues the call and returns
true. -/
theorem c8_set_config_unlocked_witness :
    setConfig ⟨false, false⟩ 3 () false =
      (decide (false = false),
        [ChromaEvent.logError, ChromaEvent.setChromaKeyConfig 3]) :=
  c8_set_config_unlocked ⟨false, false⟩ 3 () false rfl

/-- C10: `unlockConfig` from the Locked shadow state clears `m_configLocked`
unconditionally after the `varjo_Unlock` call — also when the call reports a
device error — so the shadow always reads Unlocked afterwards, and the unlock
call is issued exactly once. -/
theorem c10_unlock_clears_shadow (st : ChromaState) (callErr : Bool)
    (hlocked : st.configLocked = true) :
    (unlockConfig st callErr).1.configLocked = false ∧
    ((unlockConfig st callErr).2).count ChromaEvent.unlock = 1 := by
  unfold unlockConfig
  rw [if_neg (by rw [hlocked]; simp)]
  cases callErr <;> exact ⟨rfl, rfl⟩

/-- C10, witness: unlocking from the Locked shadow with a device error still
clears the shadow flag and issues the unlock call. -/
theorem c10_unlock_clears_shadow_witness :
    (unlockConfig ⟨true, false⟩ true).1.configLocked = false ∧
    ((unlockConfig ⟨true, false⟩ true).2).count ChromaEvent.unlock = 1 :=
  c10_unlock_clears_shadow ⟨true, false⟩ true rfl

end VarjoCam
